import Mathlib

/-!
# Verification of the npm-registry email-collection script

A shallow embedding of `src/scripts/index.ts`: a Deno script that pages
through npm registry search results for a list of queries, extracts
publisher/maintainer emails from the returned package records,
deduplicates them against a previously-sent set and a running
new-email set, and writes one output file per query.

Conventions of the embedding:

* JavaScript string truthiness (`!!e`, `if (s)`) is `s ≠ ""`; an absent
  string field and the empty string behave identically under truthiness,
  so both are encoded as `""` where the code only tests truthiness.
* `pkg.publisher` and `pkg.maintainers` are guarded in the code
  (`pkg.publisher && ...`, `Array.isArray(pkg.maintainers)`) even though
  the TypeScript type declares them: the data is untrusted JSON, so they
  are embedded as `Option`.
* JS `Set<string>` is embedded as a `List String` consulted through
  `List.contains` (JS `===` on strings is value equality, as is `==` on
  Lean `String`); insertion order and duplicates are irrelevant to `has`.
* `async`/network effects are abstracted by oracle functions passed as
  arguments (`fetch : Nat → ...` giving the outcome of each attempt or
  page); exceptions are `Except String`.
-/

/-- The `links` field of the TypeScript `Package` type. -/
structure Links where
  npm : String
  homepage : String
  repository : String
  bugs : String
deriving DecidableEq

/-- The `publisher` field: `{ username, email }`. -/
structure Publisher where
  username : String
  email : String
deriving DecidableEq

/-- One element of the `maintainers` array: `{ username, email }`. -/
structure Maintainer where
  username : String
  email : String
deriving DecidableEq

/-- The TypeScript `Package` type. `publisher` is `Option` because the code
guards `pkg.publisher && ...`; `maintainers` is `Option` because the code
guards `pkg.maintainers && Array.isArray(pkg.maintainers)` — `none` stands
for an absent or non-array field. -/
structure Package where
  name : String
  version : String
  description : String
  keywords : List String
  date : String
  links : Links
  publisher : Option Publisher
  maintainers : Option (List Maintainer)
deriving DecidableEq

/-- `getEmailsFromPackage` (src/scripts/index.ts lines 143–152):
pushes the publisher email when `pkg.publisher && pkg.publisher.email`
is truthy, then appends `pkg.maintainers.map(m => m.email).filter(e => !!e)`
when `maintainers` is a present array. -/
def getEmailsFromPackage (pkg : Package) : List String :=
  let emails : List String :=
    match pkg.publisher with
    | some pub => if pub.email ≠ "" then [pub.email] else []
    | none => []
  match pkg.maintainers with
  | some ms => emails ++ (ms.map Maintainer.email).filter (fun e => e != "")
  | none => emails

/-- Modelled from the spec's words (section 4.4 / claim C4), for comparison
with `getEmailsFromPackage`: the publisher's email first, only if present
and non-empty, followed by the maintainers' emails in listed order skipping
empty/absent ones; an absent or non-array maintainers field contributes
nothing. -/
def extractEmailsSpec (pkg : Package) : List String :=
  (match pkg.publisher with
   | some pub => if pub.email = "" then [] else [pub.email]
   | none => []) ++
  (match pkg.maintainers with
   | some ms => ms.filterMap (fun m => if m.email = "" then none else some m.email)
   | none => [])

/-- `buildURL` (lines 77–84): throws when `max > 250`, otherwise interpolates
`size`, the fixed weights, `text` and `from` into the search URL. The JS
default argument `max = 250` is supplied explicitly by callers here. -/
def buildURL (index : Nat) (query : String) (max : Nat) : Except String String :=
  if max > 250 then
    Except.error "Max > 250 - the registry can't handle more than this."
  else
    Except.ok ("https://registry.npmjs.com/-/v1/search?size=" ++ toString max ++
      "&popularity=1.0&quality=0.0&maintenance=0.0&text=" ++ query ++
      "&from=" ++ toString index)

/-- `pageURL` (lines 86–88): `buildURL(page * 250, query)` with the default
`max = 250`. -/
def pageURL (page : Nat) (query : String) : Except String String :=
  buildURL (page * 250) query 250

/-- Outcome of one fetch-and-parse attempt inside `getPage`'s `try` block:
either a package list (the `objects.map(obj => obj.package)` of a good
response) or a failure (network error, bad JSON, or missing `objects`,
all caught alike by the `catch`). -/
inductive FetchOutcome where
  | success (pkgs : List Package)
  | failure
deriving DecidableEq

/-- `getPage` (lines 94–114) with the network abstracted: `fetch n` is the
outcome of attempt number `n` (0-based). Returns the final result together
with the total number of fetch attempts performed. The code checks
`retries === 0` and throws `"retries over"` before attempting; on a caught
failure it recurses with `retries - 1`. -/
def getPageAux (fetch : Nat → FetchOutcome) : Nat → Nat → Except String (List Package) × Nat
  | 0, attempted => (Except.error "retries over", attempted)
  | retries + 1, attempted =>
    match fetch attempted with
    | FetchOutcome.success pkgs => (Except.ok pkgs, attempted + 1)
    | FetchOutcome.failure => getPageAux fetch retries (attempted + 1)

/-- `getPage` entered with a given retry budget (the JS default is 2). -/
def getPage (fetch : Nat → FetchOutcome) (retries : Nat) : Except String (List Package) × Nat :=
  getPageAux fetch retries 0

/-- `PAGES_PER_QUERY` (line 56). -/
def PAGES_PER_QUERY : Nat := 40

/-- The page loop of `getPackages` (lines 129–140) with the retrying fetch
abstracted: `fetch i` is the result of `getPage(i, query)` for page `i`.
Arguments: current page, remaining pages, accumulator. A thrown error
(`Except.error`) propagates, aborting the remaining pages. -/
def walkPages (fetch : Nat → Except String (List Package)) : Nat → Nat → List Package → Except String (List Package)
  | _, 0, acc => Except.ok acc
  | i, k + 1, acc =>
    match fetch i with
    | Except.ok pkgs => walkPages fetch (i + 1) k (acc ++ pkgs)
    | Except.error e => Except.error e

/-- `getPackages` (lines 118–141): walks pages `0 .. PAGES_PER_QUERY - 1`
sequentially, appending each page's packages in arrival order. -/
def getPackages (fetch : Nat → Except String (List Package)) : Except String (List Package) :=
  walkPages fetch 0 PAGES_PER_QUERY []

/-- The filter callback of lines 162–164, applied to the element `p.2` at
index `p.1` of the flattened email list `es`:
`(unfiltered.indexOf(email) === i) && (!sentEmailsSet.has(email)) && (!newEmailsSet.has(email))`. -/
def keepEmail (es sent new : List String) (p : Nat × String) : Bool :=
  (es.indexOf p.2 == p.1) && !(sent.contains p.2) && !(new.contains p.2)

/-- The deduplication of lines 160–164: keep the first occurrence of each
email that is in neither the sent set nor the running new set. `List.enum`
supplies the `(i, email)` pairs of JS `Array.prototype.filter`. -/
def dedupe (es sent new : List String) : List String :=
  ((es.enum).filter (keepEmail es sent new)).map Prod.snd

/-- The main query loop (lines 154–168), with fetching abstracted: each query
comes paired with the packages `getPackages` returned for it. Produces the
per-query retained email lists in order; `newAcc` is the running
`newEmailsSet`, extended by each query's retained emails before the next
query is processed. -/
def processQueries (sent : List String) : List (String × List Package) → List String → List (String × List String)
  | [], _ => []
  | (q, pkgs) :: rest, newAcc =>
    let r := dedupe ((pkgs.map getEmailsFromPackage).flatten) sent newAcc
    (q, r) :: processQueries sent rest (newAcc ++ r)

/-- `OUT_PATH` (line 51). -/
def OUT_PATH : String := "data/out"

/-- The output file for a query (line 166):
`path.join(OUT_PATH, query + "_new_emails.txt")`. -/
def outputFileName (query : String) : String :=
  OUT_PATH ++ "/" ++ query ++ "_new_emails.txt"

/-- Observable events of the main loop relevant to output writing. The
loop's only write is the un-awaited, un-handled `fs.writeFile` of line 166;
`logged` exists so that "the failure is logged" is expressible, but no
statement of the loop emits it on a write failure (there is no `catch`,
`.catch`, `await` or `console.*` attached to the write). -/
inductive Event where
  | writeAttempt (file : String) (content : String) (ok : Bool)
  | logged (msg : String)
deriving DecidableEq

/-- Whether an event is a log message. -/
def Event.isLogged : Event → Bool
  | Event.logged _ => true
  | _ => false

/-- The write an event attempted (file and content), regardless of outcome. -/
def Event.core : Event → Option (String × String)
  | Event.writeAttempt f c _ => some (f, c)
  | Event.logged _ => none

/-- The write trace of a run: one `fs.writeFile` per query, content
`newEmails.join("\n")`, outcome given by the oracle `writeOk` (the code
neither awaits nor handles it, so the loop's behaviour cannot depend on
it — which the theorems below make precise). -/
def runTrace (writeOk : String → Bool) (sent : List String) (run : List (String × List Package)) (newAcc : List String) : List Event :=
  (processQueries sent run newAcc).map (fun p =>
    Event.writeAttempt (outputFileName p.1) (String.intercalate "\n" p.2)
      (writeOk (outputFileName p.1)))

/-- `allPackagesSet` (lines 116, 157): a JS `Set<Package>` keyed by object
reference. Every record in `packages` is a fresh object produced by
`response.json()` and each is added exactly once, so the set retains one
element per fetched record; the embedding identifies a record by its
arrival position. -/
def allPackagesSet (fetched : List Package) : List (Nat × Package) :=
  fetched.enum

/-- `allPackagesSet.size`, the "unique packages" figure of the final
summary (line 172). -/
def allPackagesSetSize (fetched : List Package) : Nat :=
  (allPackagesSet fetched).length

/-- The count the spec describes: packages identified by name. -/
def uniqueNamesCount (fetched : List Package) : Nat :=
  ((fetched.map Package.name).dedup).length

/-! ## Helper lemmas -/

lemma contains_true_iff (l : List String) (a : String) : l.contains a = true ↔ a ∈ l := by
  simp [List.contains, List.elem_iff]

lemma contains_false_iff (l : List String) (a : String) : l.contains a = false ↔ a ∉ l := by
  rw [← Bool.not_eq_true, not_iff_not]
  exact contains_true_iff l a

lemma keepEmail_iff (es sent new : List String) (i : Nat) (e : String) :
    keepEmail es sent new (i, e) = true ↔
      es.indexOf e = i ∧ e ∉ sent ∧ e ∉ new := by
  simp [keepEmail, Bool.and_eq_true, Bool.not_eq_true', contains_false_iff, and_assoc]

lemma mem_dedupe_iff (es sent new : List String) (e : String) :
    e ∈ dedupe es sent new ↔
      ∃ i, (i, e) ∈ es.enum ∧ keepEmail es sent new (i, e) = true := by
  simp only [dedupe, List.mem_map, List.mem_filter]
  constructor
  · rintro ⟨⟨i, a⟩, ⟨hm, hk⟩, rfl⟩
    exact ⟨i, hm, hk⟩
  · rintro ⟨i, hm, hk⟩
    exact ⟨(i, e), ⟨hm, hk⟩, rfl⟩

lemma mem_of_mem_dedupe {es sent new : List String} {e : String}
    (h : e ∈ dedupe es sent new) : e ∈ es := by
  obtain ⟨i, hm, -⟩ := (mem_dedupe_iff es sent new e).mp h
  have hg : es[i]? = some e := List.mem_enum_iff_getElem?.mp hm
  rw [List.getElem?_eq_some_iff] at hg
  obtain ⟨hlt, he⟩ := hg
  exact he ▸ List.getElem_mem hlt

lemma not_sent_of_mem_dedupe {es sent new : List String} {e : String}
    (h : e ∈ dedupe es sent new) : e ∉ sent := by
  obtain ⟨i, -, hk⟩ := (mem_dedupe_iff es sent new e).mp h
  exact ((keepEmail_iff es sent new i e).mp hk).2.1

lemma not_new_of_mem_dedupe {es sent new : List String} {e : String}
    (h : e ∈ dedupe es sent new) : e ∉ new := by
  obtain ⟨i, -, hk⟩ := (mem_dedupe_iff es sent new e).mp h
  exact ((keepEmail_iff es sent new i e).mp hk).2.2

lemma mem_dedupe_of_keep {es sent new : List String} {i : Nat} {e : String}
    (hm : (i, e) ∈ es.enum) (hk : keepEmail es sent new (i, e) = true) :
    e ∈ dedupe es sent new :=
  (mem_dedupe_iff es sent new e).mpr ⟨i, hm, hk⟩

lemma processQueries_nil (sent : List String) (newAcc : List String) :
    processQueries sent [] newAcc = [] := rfl

lemma processQueries_cons (sent : List String) (q : String) (pkgs : List Package)
    (rest : List (String × List Package)) (newAcc : List String) :
    processQueries sent ((q, pkgs) :: rest) newAcc =
      (q, dedupe ((pkgs.map getEmailsFromPackage).flatten) sent newAcc) ::
        processQueries sent rest
          (newAcc ++ dedupe ((pkgs.map getEmailsFromPackage).flatten) sent newAcc) := rfl

lemma processQueries_not_mem_acc (sent : List String) (run : List (String × List Package)) :
    ∀ (newAcc : List String) (p : String × List String),
      p ∈ processQueries sent run newAcc → ∀ e ∈ p.2, e ∉ newAcc := by
  induction run with
  | nil =>
    intro newAcc p hp
    simp [processQueries_nil] at hp
  | cons hd tl ih =>
    intro newAcc p hp e he
    obtain ⟨q, pkgs⟩ := hd
    rw [processQueries_cons, List.mem_cons] at hp
    rcases hp with rfl | hp
    · exact not_new_of_mem_dedupe he
    · intro hmem
      exact ih _ p hp e he (List.mem_append_left _ hmem)

lemma processQueries_not_sent (sent : List String) (run : List (String × List Package)) :
    ∀ (newAcc : List String) (p : String × List String),
      p ∈ processQueries sent run newAcc → ∀ e ∈ p.2, e ∉ sent := by
  induction run with
  | nil =>
    intro newAcc p hp
    simp [processQueries_nil] at hp
  | cons hd tl ih =>
    intro newAcc p hp e he
    obtain ⟨q, pkgs⟩ := hd
    rw [processQueries_cons, List.mem_cons] at hp
    rcases hp with rfl | hp
    · exact not_sent_of_mem_dedupe he
    · exact ih _ p hp e he

lemma processQueries_pairwise (sent : List String) (run : List (String × List Package)) :
    ∀ newAcc : List String,
      (processQueries sent run newAcc).Pairwise (fun a b => ∀ e ∈ a.2, e ∉ b.2) := by
  induction run with
  | nil =>
    intro newAcc
    simp [processQueries_nil]
  | cons hd tl ih =>
    intro newAcc
    obtain ⟨q, pkgs⟩ := hd
    rw [processQueries_cons]
    refine List.Pairwise.cons ?_ (ih _)
    intro b hb e her heb
    exact processQueries_not_mem_acc sent tl _ b hb e heb (List.mem_append_right _ her)

lemma dedupe_twice_nil (es sent new : List String) :
    dedupe es sent (new ++ dedupe es sent new) = [] := by
  have hfilter : (es.enum).filter (keepEmail es sent (new ++ dedupe es sent new)) = [] := by
    rw [List.filter_eq_nil_iff]
    rintro ⟨i, a⟩ hmem hk
    obtain ⟨hidx, hsent, hnew2⟩ := (keepEmail_iff es sent _ i a).mp hk
    rw [List.mem_append] at hnew2
    push_neg at hnew2
    obtain ⟨hnew, hded⟩ := hnew2
    exact hded (mem_dedupe_of_keep hmem
      ((keepEmail_iff es sent new i a).mpr ⟨hidx, hsent, hnew⟩))
  rw [dedupe, hfilter]
  rfl

lemma mem_getEmailsFromPackage_ne_empty (pkg : Package) :
    ∀ e ∈ getEmailsFromPackage pkg, e ≠ "" := by
  intro e he
  obtain ⟨n, v, d, kw, dt, lk, pub, ms⟩ := pkg
  cases pub with
  | none =>
    cases ms with
    | none => simp [getEmailsFromPackage] at he
    | some ms =>
      simp only [getEmailsFromPackage, List.nil_append] at he
      obtain ⟨-, hne⟩ := List.mem_filter.mp he
      simpa using hne
  | some pub =>
    cases ms with
    | none =>
      simp only [getEmailsFromPackage] at he
      split at he
      · rw [List.mem_singleton] at he
        subst he
        assumption
      · simp at he
    | some ms =>
      simp only [getEmailsFromPackage] at he
      rw [List.mem_append] at he
      rcases he with he | he
      · split at he
        · rw [List.mem_singleton] at he
          subst he
          assumption
        · simp at he
      · obtain ⟨-, hne⟩ := List.mem_filter.mp he
        simpa using hne

lemma processQueries_output_ne_empty (sent : List String) (run : List (String × List Package)) :
    ∀ (newAcc : List String) (p : String × List String),
      p ∈ processQueries sent run newAcc → ∀ e ∈ p.2, e ≠ "" := by
  induction run with
  | nil =>
    intro newAcc p hp
    simp [processQueries_nil] at hp
  | cons hd tl ih =>
    intro newAcc p hp e he
    obtain ⟨q, pkgs⟩ := hd
    rw [processQueries_cons, List.mem_cons] at hp
    rcases hp with rfl | hp
    · have hes : e ∈ (pkgs.map getEmailsFromPackage).flatten := mem_of_mem_dedupe he
      rw [List.mem_flatten] at hes
      obtain ⟨l, hl, hel⟩ := hes
      rw [List.mem_map] at hl
      obtain ⟨pkg, -, rfl⟩ := hl
      exact mem_getEmailsFromPackage_ne_empty pkg e hel
    · exact ih _ p hp e he

lemma getPageAux_all_failures (fetch : Nat → FetchOutcome)
    (h : ∀ n, fetch n = FetchOutcome.failure) :
    ∀ (r a : Nat), getPageAux fetch r a = (Except.error "retries over", a + r) := by
  intro r
  induction r with
  | zero => intro a; rfl
  | succ r ih =>
    intro a
    rw [getPageAux, h a, ih (a + 1)]
    have : a + 1 + r = a + (r + 1) := by omega
    rw [this]

lemma walkPages_all_ok (fetch : Nat → Except String (List Package)) (ps : Nat → List Package) :
    ∀ (k i : Nat) (acc : List Package),
      (∀ j, j < k → fetch (i + j) = Except.ok (ps (i + j))) →
      walkPages fetch i k acc =
        Except.ok (acc ++ ((List.range k).map (fun j => ps (i + j))).flatten) := by
  intro k
  induction k with
  | zero =>
    intro i acc h
    simp [walkPages]
  | succ k ih =>
    intro i acc h
    have h0 : fetch i = Except.ok (ps i) := by simpa using h 0 (Nat.succ_pos k)
    simp only [walkPages, h0]
    have hrest : ∀ j, j < k → fetch (i + 1 + j) = Except.ok (ps (i + 1 + j)) := by
      intro j hj
      have := h (j + 1) (by omega)
      rw [show i + (j + 1) = i + 1 + j by omega] at this
      exact this
    rw [ih (i + 1) (acc ++ ps i) hrest]
    have hmap : (List.range k).map ((fun j => ps (i + j)) ∘ Nat.succ) =
        (List.range k).map (fun j => ps (i + 1 + j)) := by
      apply List.map_congr_left
      intro j hj
      simp only [Function.comp_apply]
      rw [show i + (Nat.succ j) = i + 1 + j from by omega]
    rw [List.range_succ_eq_map, List.map_cons, List.map_map, hmap, List.flatten_cons,
      List.append_assoc]
    rfl

lemma walkPages_first_error (fetch : Nat → Except String (List Package)) (e : String) :
    ∀ (m k i : Nat) (acc : List Package),
      m < k →
      (∀ j, j < m → ∃ l, fetch (i + j) = Except.ok l) →
      fetch (i + m) = Except.error e →
      walkPages fetch i k acc = Except.error e := by
  intro m
  induction m with
  | zero =>
    intro k i acc hk hok herr
    obtain ⟨k2, rfl⟩ : ∃ k2, k = k2 + 1 := ⟨k - 1, by omega⟩
    rw [Nat.add_zero] at herr
    rw [walkPages, herr]
  | succ m ih =>
    intro k i acc hk hok herr
    obtain ⟨k2, rfl⟩ : ∃ k2, k = k2 + 1 := ⟨k - 1, by omega⟩
    obtain ⟨l0, hl0⟩ := hok 0 (Nat.succ_pos m)
    rw [Nat.add_zero] at hl0
    simp only [walkPages, hl0]
    refine ih k2 (i + 1) (acc ++ l0) (by omega) ?_ ?_
    · intro j hj
      obtain ⟨l, hl⟩ := hok (j + 1) (by omega)
      rw [show i + (j + 1) = i + 1 + j by omega] at hl
      exact ⟨l, hl⟩
    · rw [show i + 1 + m = i + (m + 1) by omega]
      exact herr

lemma maintainer_emails_filter_eq (ms : List Maintainer) :
    (ms.map Maintainer.email).filter (fun e => e != "") =
      ms.filterMap (fun m => if m.email = "" then none else some m.email) := by
  induction ms with
  | nil => rfl
  | cons m ms ih =>
    by_cases h : m.email = "" <;>
      simp [List.filter_cons, List.filterMap_cons, h, ih]

/-! ## Concrete sample data

`samplePkgA` realises the worked example of spec section 8: publisher
`a@x.com` and two maintainers both `b@x.com`, so its extracted email list
is `["a@x.com", "b@x.com", "b@x.com"]`. `samplePkgC` carries only the
publisher email `c@x.com`. `samplePkgDup` is a record added twice to model
two fetched records with the same name. -/

def sampleLinks : Links := ⟨"", "", "", ""⟩

def samplePkgA : Package :=
  ⟨"a", "1.0.0", "", [], "", sampleLinks, some ⟨"ua", "a@x.com"⟩,
    some [⟨"m1", "b@x.com"⟩, ⟨"m2", "b@x.com"⟩]⟩

def samplePkgC : Package :=
  ⟨"c", "1.0.0", "", [], "", sampleLinks, some ⟨"uc", "c@x.com"⟩, none⟩

def samplePkgDup : Package :=
  ⟨"dup", "1.0.0", "", [], "", sampleLinks, some ⟨"ud", "d@x.com"⟩, none⟩

/-- A fetcher whose every attempt fails. -/
def failFetch : Nat → FetchOutcome := fun _ => FetchOutcome.failure

/-- A fetcher that fails on attempt 0 and succeeds from attempt 1 on. -/
def failOnceFetch : Nat → FetchOutcome :=
  fun n => if n = 0 then FetchOutcome.failure else FetchOutcome.success [samplePkgC]

/-- A fetcher that fails on attempts 0 and 1 and succeeds from attempt 2 on. -/
def failTwiceFetch : Nat → FetchOutcome :=
  fun n => if n < 2 then FetchOutcome.failure else FetchOutcome.success [samplePkgC]

/-- A page fetcher that returns an empty page for every page index. -/
def okPagesFetch : Nat → Except String (List Package) := fun _ => Except.ok []

/-- A page fetcher that fails on every page. -/
def errPagesFetch : Nat → Except String (List Package) := fun _ => Except.error "boom"

/-- A write oracle that fails exactly on query `"foo"`'s output file. -/
def badWriteOracle : String → Bool := fun f => f != outputFileName "foo"

/-! ## Claim theorems -/

/-- C1: for every run, the email list retained for (and written to the output
file of) any query contains no email that is a member of the `sentEmailsSet`
loaded at startup — the Deduplicator's `!sentEmailsSet.has(email)` conjunct
is preserved by the whole query loop. -/
theorem run_output_disjoint_sent :
    ∀ (sent : List String) (run : List (String × List Package))
      (p : String × List String),
      p ∈ processQueries sent run [] → ∀ e ∈ p.2, e ∉ sent :=
  fun sent run p hp e he => processQueries_not_sent sent run [] p hp e he

/-- Witness for C1, instantiating the spec's worked example: with
`SentEmailSet = {"a@x.com"}` and extracted emails
`["a@x.com", "b@x.com", "b@x.com"]` the output is `["b@x.com"]`,
and `"b@x.com"` is not in the sent set. -/
theorem run_output_disjoint_sent_witness :
    ("foo", ["b@x.com"]) ∈ processQueries ["a@x.com"] [("foo", [samplePkgA])] [] ∧
    "b@x.com" ∈ ["b@x.com"] ∧ "b@x.com" ∉ ["a@x.com"] :=
  ⟨by decide, by decide,
   run_output_disjoint_sent ["a@x.com"] [("foo", [samplePkgA])]
     ("foo", ["b@x.com"]) (by decide) "b@x.com" (by decide)⟩

/-- C2: for every run, the retained email lists of distinct queries are
pairwise disjoint — an earlier query's retained emails enter the running
`newEmailsSet` before the next query is processed, and the Deduplicator's
`!newEmailsSet.has(email)` conjunct drops them. -/
theorem run_outputs_pairwise_disjoint :
    ∀ (sent : List String) (run : List (String × List Package)),
      (processQueries sent run []).Pairwise (fun a b => ∀ e ∈ a.2, e ∉ b.2) :=
  fun sent run => processQueries_pairwise sent run []

/-- Witness for C2, instantiating the spec's worked example: queries
`"foo"` and `"bar"` both surface `"c@x.com"`; it is retained for `"foo"`
only and `"bar"`'s output omits it. -/
theorem run_outputs_pairwise_disjoint_witness :
    (processQueries [] [("foo", [samplePkgC]), ("bar", [samplePkgC])] []).Pairwise
      (fun a b => ∀ e ∈ a.2, e ∉ b.2) ∧
    processQueries [] [("foo", [samplePkgC]), ("bar", [samplePkgC])] [] =
      [("foo", ["c@x.com"]), ("bar", [])] :=
  ⟨run_outputs_pairwise_disjoint [] [("foo", [samplePkgC]), ("bar", [samplePkgC])],
   by decide⟩

/-- C5: the Deduplicator is idempotent in the run's sense: after the first
run's retained list has been added to the running `newEmailsSet` (as the
loop does before the next query), deduplicating the same extracted email
sequence again against the same sent set and the updated new set yields
an empty result. -/
theorem dedupe_second_run_empty :
    ∀ es sent new : List String,
      dedupe es sent (new ++ dedupe es sent new) = [] :=
  fun es sent new => dedupe_twice_nil es sent new

/-- C4: the email extractor agrees with the spec's description — the
publisher's email first (only if present and non-empty), then the
maintainers' emails in listed order skipping empty/absent ones, with an
absent or non-array maintainers field treated as empty. -/
theorem getEmailsFromPackage_eq_spec (pkg : Package) :
    getEmailsFromPackage pkg = extractEmailsSpec pkg := by
  obtain ⟨n, v, d, kw, dt, lk, pub, ms⟩ := pkg
  cases pub with
  | none =>
    cases ms with
    | none => rfl
    | some ms =>
      simp [getEmailsFromPackage, extractEmailsSpec, maintainer_emails_filter_eq]
  | some pub =>
    cases ms with
    | none =>
      by_cases h : pub.email = "" <;>
        simp [getEmailsFromPackage, extractEmailsSpec, h]
    | some ms =>
      by_cases h : pub.email = "" <;>
        simp [getEmailsFromPackage, extractEmailsSpec, maintainer_emails_filter_eq, h]

/-- C10: every email the extractor emits is non-empty (the code pushes a
publisher email only when truthy and filters maintainer emails with
`!!e`), and hence every email retained for any query's output file is
non-empty — even when the sent set loaded from file contains the empty
string (as a trailing newline in `sent_emails.txt` produces). -/
theorem extracted_and_written_emails_nonempty :
    (∀ pkg : Package, ∀ e ∈ getEmailsFromPackage pkg, e ≠ "") ∧
    (∀ (sent : List String) (run : List (String × List Package))
       (p : String × List String),
       p ∈ processQueries sent run [] → ∀ e ∈ p.2, e ≠ "") :=
  ⟨fun pkg e he => mem_getEmailsFromPackage_ne_empty pkg e he,
   fun sent run p hp e he => processQueries_output_ne_empty sent run [] p hp e he⟩

/-- Witness for C10: a sent set containing the empty string (modelling a
trailing newline in the input file) still yields a non-empty retained
email. -/
theorem extracted_and_written_emails_nonempty_witness :
    "b@x.com" ∈ getEmailsFromPackage samplePkgA ∧
    ("foo", ["b@x.com"]) ∈ processQueries ["a@x.com", ""] [("foo", [samplePkgA])] [] ∧
    "b@x.com" ≠ "" :=
  ⟨by decide, by decide,
   extracted_and_written_emails_nonempty.2 ["a@x.com", ""] [("foo", [samplePkgA])]
     ("foo", ["b@x.com"]) (by decide) "b@x.com" (by decide)⟩

/-- C3 counterexample: with retry budget 2 and an always-failing fetcher,
`getPage` performs exactly 2 attempts — not 2 + 1 — and with a fetcher
that fails twice then succeeds, budget 2 surfaces the terminal
`"retries over"` error instead of returning the successful result. -/
theorem getPage_attempts_counterexample :
    (getPage failFetch 2).2 = 2 ∧ ((2 : Nat) ≠ 2 + 1) ∧
    (getPage failTwiceFetch 2).1 = Except.error "retries over" :=
  ⟨rfl, by decide, rfl⟩

/-- C3 amended: with retry budget N and an always-failing fetcher, exactly
N fetch attempts occur before the terminal `"retries over"` error
surfaces; with budget 2 and a fetcher that fails once then succeeds, the
wrapper returns the successful result exactly once (on its second and
final attempt). -/
theorem getPage_retry_budget_attempts :
    (∀ (fetch : Nat → FetchOutcome) (retries : Nat),
       (∀ n, fetch n = FetchOutcome.failure) →
       getPage fetch retries = (Except.error "retries over", retries)) ∧
    (∀ (fetch : Nat → FetchOutcome) (pkgs : List Package),
       fetch 0 = FetchOutcome.failure → fetch 1 = FetchOutcome.success pkgs →
       getPage fetch 2 = (Except.ok pkgs, 2)) := by
  constructor
  · intro fetch retries h
    have := getPageAux_all_failures fetch h retries 0
    rw [Nat.zero_add] at this
    exact this
  · intro fetch pkgs h0 h1
    rw [getPage, getPageAux, h0, getPageAux, h1]

/-- Witness for C3 amended: the always-failing fetcher with budget 2 makes
2 attempts and errors; the fail-once fetcher with budget 2 returns its
page. -/
theorem getPage_retry_budget_attempts_witness :
    getPage failFetch 2 = (Except.error "retries over", 2) ∧
    getPage failOnceFetch 2 = (Except.ok [samplePkgC], 2) :=
  ⟨getPage_retry_budget_attempts.1 failFetch 2 (fun _ => rfl),
   getPage_retry_budget_attempts.2 failOnceFetch [samplePkgC] rfl rfl⟩

/-- C6: for every zero-based page index `p` and query `q`, the page URL is
the search endpoint with `size=250`, the fixed weights, `text=q` and
`from=p*250`; and `buildURL` with a size greater than 250 throws. -/
theorem pageURL_shape_and_size_cap :
    (∀ (p : Nat) (q : String),
       pageURL p q = Except.ok
         ("https://registry.npmjs.com/-/v1/search?size=250&popularity=1.0&quality=0.0&maintenance=0.0&text=" ++
           q ++ "&from=" ++ toString (p * 250))) ∧
    (∀ (i m : Nat) (q : String), 250 < m →
       buildURL i q m =
         Except.error "Max > 250 - the registry can't handle more than this.") := by
  constructor
  · intro p q
    rfl
  · intro i m q h
    rw [buildURL, if_pos h]

/-- Witness for C6: page 3 of query `"foo"` yields `from=750`, and size 251
is rejected. -/
theorem pageURL_shape_and_size_cap_witness :
    pageURL 3 "foo" = Except.ok
      ("https://registry.npmjs.com/-/v1/search?size=250&popularity=1.0&quality=0.0&maintenance=0.0&text=" ++
        "foo" ++ "&from=" ++ toString (3 * 250)) ∧
    buildURL 0 "foo" 251 =
      Except.error "Max > 250 - the registry can't handle more than this." :=
  ⟨pageURL_shape_and_size_cap.1 3 "foo",
   pageURL_shape_and_size_cap.2 0 251 "foo" (by decide)⟩

/-- C7: the page walker visits pages 0 through `PAGES_PER_QUERY - 1` (40 in
the reference configuration) in order, returning the concatenation of the
pages' package lists in arrival order when every page succeeds; and when
the first failing page is `k`, the error propagates as the result —
regardless of what any page after `k` would have returned, so the
remaining pages are aborted. -/
theorem getPackages_walks_pages_and_aborts :
    (∀ (fetch : Nat → Except String (List Package)) (ps : Nat → List Package),
       (∀ i, i < PAGES_PER_QUERY → fetch i = Except.ok (ps i)) →
       getPackages fetch = Except.ok (((List.range PAGES_PER_QUERY).map ps).flatten)) ∧
    (∀ (fetch : Nat → Except String (List Package)) (k : Nat) (e : String),
       k < PAGES_PER_QUERY →
       (∀ i, i < k → ∃ l, fetch i = Except.ok l) →
       fetch k = Except.error e →
       getPackages fetch = Except.error e) := by
  constructor
  · intro fetch ps h
    have := walkPages_all_ok fetch ps PAGES_PER_QUERY 0 []
      (fun j hj => by simpa using h j hj)
    simpa using this
  · intro fetch k e hk hok herr
    exact walkPages_first_error fetch e k PAGES_PER_QUERY 0 [] hk
      (fun j hj => by simpa using hok j hj) (by simpa using herr)

/-- Witness for C7: all-empty pages accumulate to the empty list, and a
fetcher failing already at page 0 propagates its error. -/
theorem getPackages_walks_pages_and_aborts_witness :
    getPackages okPagesFetch =
      Except.ok (((List.range PAGES_PER_QUERY).map (fun _ => ([] : List Package))).flatten) ∧
    getPackages errPagesFetch = Except.error "boom" :=
  ⟨getPackages_walks_pages_and_aborts.1 okPagesFetch (fun _ => []) (fun _ _ => rfl),
   getPackages_walks_pages_and_aborts.2 errPagesFetch 0 "boom" (by decide)
     (fun i hi => absurd hi (Nat.not_lt_zero i)) rfl⟩

/-- C8: evaluation at the failing input of the "unique packages" count.
`allPackagesSet` is a JS `Set<Package>` of freshly parsed objects, keyed by
reference, so two fetched records with the same name — here even two
byte-identical records — count as 2, while identity by name (as the claim
and the sibling script's `new Set(packages.map(pkg => pkg.name)).size`
prescribe) counts 1. -/
theorem allPackagesSet_counts_by_reference_not_name :
    allPackagesSetSize [samplePkgDup, samplePkgDup] = 2 ∧
    uniqueNamesCount [samplePkgDup, samplePkgDup] = 1 := by
  constructor
  · rfl
  · decide

/-- C9 counterexample: a run of two queries in which the first query's
write fails. The trace records the failed write attempt for `"foo"` and
the successful one for `"bar"` — processing continued — but contains no
`logged` event at all: the `fs.writeFile` of line 166 is neither awaited
nor given any error handler, so the script reports nothing about the
failure. -/
theorem write_failure_not_logged_counterexample :
    runTrace badWriteOracle [] [("foo", [samplePkgA]), ("bar", [samplePkgC])] [] =
      [Event.writeAttempt "data/out/foo_new_emails.txt" ("a@x.com" ++ "\n" ++ "b@x.com") false,
       Event.writeAttempt "data/out/bar_new_emails.txt" "c@x.com" true] ∧
    (runTrace badWriteOracle [] [("foo", [samplePkgA]), ("bar", [samplePkgC])] []).all
      (fun ev => !ev.isLogged) = true := by
  constructor
  · decide
  · decide

/-- C9 amended: a failure while writing one query's output file is ignored
by the script (the write is un-awaited and has no handler, so nothing is
logged) and does not prevent processing and writing of subsequent queries'
output files: which files are written with which content is identical
under any two write oracles, one write attempt per query, and the loop
emits no log event. -/
theorem write_failure_ignored_and_isolated :
    (∀ (writeOk writeOk2 : String → Bool) (sent : List String)
       (run : List (String × List Package)) (newAcc : List String),
       (runTrace writeOk sent run newAcc).map Event.core =
         (runTrace writeOk2 sent run newAcc).map Event.core) ∧
    (∀ (writeOk : String → Bool) (sent : List String)
       (run : List (String × List Package)) (newAcc : List String),
       (runTrace writeOk sent run newAcc).length = (processQueries sent run newAcc).length ∧
       (runTrace writeOk sent run newAcc).all (fun ev => !ev.isLogged) = true) := by
  constructor
  · intro writeOk writeOk2 sent run newAcc
    simp only [runTrace, List.map_map]
    rfl
  · intro writeOk sent run newAcc
    constructor
    · simp [runTrace]
    · simp only [runTrace, List.all_eq_true]
      intro ev hev
      rw [List.mem_map] at hev
      obtain ⟨p, -, rfl⟩ := hev
      rfl
